import Mathlib

/-!
Verification development for the astro-micropub resource server.

This file gives a shallow embedding, in Lean, of the request-processing and
authorization pipeline of the repository: the scope model
(`src/validators/scopes.ts`), the token verifier and its in-memory cache
(`src/lib/token-verification.ts`), the form-encoded request parser
(`src/lib/parsers.ts`), the update-operation engine
(`src/validators/micropub.ts` and `src/storage/dev-fs-adapter.ts`), the
configuration-default resolution (`src/validators/config.ts` and
`src/integration.ts`), and the media and micropub protocol handlers
(`src/routes/media.ts`, `src/routes/micropub.ts`).

JavaScript records are embedded as association lists in insertion order
(string-keyed JS objects enumerate in insertion order), JS `undefined` as
`Option.none`, thrown exceptions as `Except`, and the external network as an
explicit oracle argument.  Machine integers do not overflow in the modelled
code paths (timestamps, sizes), so they are embedded as `Nat`.
-/

namespace Micropub

/-! ## JavaScript record primitives

String-keyed JS records embedded as association lists in insertion order,
with the three record idioms the source uses: member access, spread-update
`\x7b...r, [k]: v\x7d`, and rest-destructuring removal. -/

/-- JS member access `r[k]`, `undefined` embedded as `none`. -/
def recordGet {α : Type} : List (String × α) → String → Option α
  | [], _ => none
  | (k, v) :: rest, p => if k = p then some v else recordGet rest p

/-- Embedding of the JS record spread `\x7b...r, [k]: v\x7d` (and of plain
assignment `r[k] = v`): an existing key keeps its position with the new
value; a new key is appended. -/
def recordSet {α : Type} (r : List (String × α)) (p : String) (v : α) : List (String × α) :=
  if r.any (fun kv => kv.1 = p) then
    r.map (fun kv => if kv.1 = p then (p, v) else kv)
  else
    r ++ [(p, v)]

/-- Embedding of rest-destructuring removal
(`const \x7b [k]: _removed, ...rest \x7d = r`): drop the key. -/
def recordRemove {α : Type} (r : List (String × α)) (p : String) : List (String × α) :=
  r.filter (fun kv => kv.1 ≠ p)

theorem recordGet_recordSet_self {α : Type} (r : List (String × α)) (p : String) (v : α) :
    recordGet (recordSet r p v) p = some v := by
  unfold recordSet
  by_cases h : r.any (fun kv => kv.1 = p)
  · simp only [h, if_pos]
    induction r with
    | nil => simp at h
    | cons kv rest ih =>
        by_cases hk : kv.1 = p
        · rw [List.map_cons, if_pos hk]
          simp [recordGet]
        · simp only [List.any_cons, decide_eq_true_eq, hk, false_or] at h
          simp only [List.map_cons, if_neg hk]
          simpa [recordGet, hk] using ih h
  · simp only [h, if_neg, Bool.false_eq_true, not_false_eq_true]
    induction r with
    | nil => simp [recordGet]
    | cons kv rest ih =>
        simp only [List.any_cons, Bool.or_eq_true, decide_eq_true_eq] at h
        push_neg at h
        simp only [List.cons_append, recordGet, if_neg h.1]
        exact ih (by simpa using h.2)

theorem recordGet_map_set_ne {α : Type} (r : List (String × α)) (p q : String) (v : α)
    (hpq : q ≠ p) :
    recordGet (r.map (fun kv => if kv.1 = p then (p, v) else kv)) q = recordGet r q := by
  induction r with
  | nil => rfl
  | cons kv rest ih =>
      by_cases hk : kv.1 = p
      · rw [List.map_cons, if_pos hk]
        simp only [recordGet]
        rw [if_neg (fun hc : p = q => hpq hc.symm),
          if_neg (fun hc : kv.1 = q => hpq (hk ▸ hc ▸ rfl))]
        exact ih
      · rw [List.map_cons, if_neg hk]
        simp only [recordGet]
        by_cases hq : kv.1 = q
        · rw [if_pos hq, if_pos hq]
        · rw [if_neg hq, if_neg hq]
          exact ih

theorem recordGet_append_single_ne {α : Type} (r : List (String × α)) (p q : String) (v : α)
    (hpq : q ≠ p) : recordGet (r ++ [(p, v)]) q = recordGet r q := by
  induction r with
  | nil => simp [recordGet, if_neg (fun hc : p = q => hpq hc.symm)]
  | cons kv rest ih =>
      simp only [List.cons_append, recordGet]
      by_cases hq : kv.1 = q
      · rw [if_pos hq, if_pos hq]
      · rw [if_neg hq, if_neg hq]
        exact ih

theorem recordGet_recordSet_ne {α : Type} (r : List (String × α)) (p q : String) (v : α)
    (hpq : q ≠ p) : recordGet (recordSet r p v) q = recordGet r q := by
  unfold recordSet
  by_cases h : r.any (fun kv => kv.1 = p)
  · rw [if_pos h]
    exact recordGet_map_set_ne r p q v hpq
  · rw [if_neg h]
    exact recordGet_append_single_ne r p q v hpq

theorem recordGet_recordRemove_self {α : Type} (r : List (String × α)) (p : String) :
    recordGet (recordRemove r p) p = none := by
  induction r with
  | nil => rfl
  | cons kv rest ih =>
      by_cases hk : kv.1 = p
      · simpa [recordRemove, hk] using ih
      · simpa [recordRemove, recordGet, hk] using ih

/-! ## JSON-like values

Property-bag values as they occur in the update path: primitive strings and
structured objects (for example `\x7burl, alt\x7d` photo entries).  A JS object is
embedded as its ordered field list. -/

mutual

/-- A JSON-like value: a primitive string or an object with an ordered
field list. -/
inductive Value where
  | str : String → Value
  | obj : Fields → Value

/-- The ordered field list of a JSON-like object (JS objects enumerate
string keys in insertion order). -/
inductive Fields where
  | fnil : Fields
  | fcons : String → Value → Fields → Fields

end

/-- Quote a string the way `JSON.stringify` quotes the strings occurring in
this development (no characters needing escapes appear in the modelled
values; quoting is wrapping in double quotes). -/
def jsonQuote (s : String) : String :=
  "\"" ++ s ++ "\""

mutual

/-- Embedding of `JSON.stringify` restricted to the value domain above:
strings are quoted, objects serialize their fields in insertion order. -/
def Value.stringify : Value → String
  | .str s => jsonQuote s
  | .obj kvs => "\x7b" ++ Fields.stringify kvs ++ "\x7d"

/-- Serialize the fields of an object, comma-separated, in order. -/
def Fields.stringify : Fields → String
  | .fnil => ""
  | .fcons k v .fnil => jsonQuote k ++ ":" ++ Value.stringify v
  | .fcons k v rest => jsonQuote k ++ ":" ++ Value.stringify v ++ "," ++ Fields.stringify rest

end

mutual

/-- Structural (order-sensitive) equality test on values. -/
def Value.beq : Value → Value → Bool
  | .str a, .str b => a == b
  | .obj a, .obj b => Fields.beq a b
  | _, _ => false

/-- Structural equality test on field lists. -/
def Fields.beq : Fields → Fields → Bool
  | .fnil, .fnil => true
  | .fcons k v rest, .fcons k2 w rest2 => k == k2 && Value.beq v w && Fields.beq rest rest2
  | _, _ => false

end

/-- Lexicographic comparison of character lists by code point. -/
def charListLt : List Char → List Char → Bool
  | [], [] => false
  | [], _ :: _ => true
  | _ :: _, [] => false
  | a :: as, b :: bs =>
      if a.val.toNat < b.val.toNat then true
      else if b.val.toNat < a.val.toNat then false
      else charListLt as bs

/-- Lexicographic string comparison used to key-sort object fields. -/
def strLtB (a b : String) : Bool :=
  charListLt a.data b.data

/-- Insert a field into a key-sorted field list, keeping it sorted. -/
def Fields.insertField (k : String) (v : Value) : Fields → Fields
  | .fnil => .fcons k v .fnil
  | .fcons k2 w rest =>
      if strLtB k k2 then .fcons k v (.fcons k2 w rest)
      else .fcons k2 w (Fields.insertField k v rest)

mutual

/-- Normal form of a value under reordering of object fields: every object's
fields are recursively normalized and sorted by key. -/
def Value.normalize : Value → Value
  | .str s => .str s
  | .obj fs => .obj (Fields.normalize fs)

/-- Normalize and key-sort a field list. -/
def Fields.normalize : Fields → Fields
  | .fnil => .fnil
  | .fcons k v rest => Fields.insertField k (Value.normalize v) (Fields.normalize rest)

end

/-- Deep structural equality of values in the sense of the spec: recursive
value equality, with object fields compared by key (insensitive to the
order in which the fields were inserted; keys are unique in any JS object).
This is the equality the spec's words describe; the source compares
`JSON.stringify` serializations instead. -/
def Value.deepEqual (v w : Value) : Bool :=
  Value.beq v.normalize w.normalize

/-! ## Property bags and update operations -/

/-- A property bag: `Record<string, unknown[]>` in the source, the
`properties` mapping of a Microformats2 entry. -/
abbrev PropertyBag := List (String × List Value)

/-- Embedding of `DevFSAdapter.removeProperty` from
`src/storage/dev-fs-adapter.ts`. -/
def removeProperty (properties : PropertyBag) (property : String) : PropertyBag :=
  recordRemove properties property

/-- `UpdateOperation` from `src/types/micropub.ts`: a tagged variant with an
optional value list on `delete`. -/
inductive UpdateOperation where
  | replace (property : String) (value : List Value)
  | add (property : String) (value : List Value)
  | delete (property : String) (value : Option (List Value))

/-- Embedding of `DevFSAdapter.applyOperation` from
`src/storage/dev-fs-adapter.ts`.  `replace` overwrites via spread; `add`
appends to the existing sequence (`?? []`); `delete` with a nonempty value
list filters out elements whose `JSON.stringify` serialization matches a
listed value, keeps the property when the filtered sequence is nonempty,
and otherwise (including `delete` without values or with an empty list)
removes the property. -/
def applyOperation (properties : PropertyBag) (op : UpdateOperation) : PropertyBag :=
  match op with
  | .replace p v => recordSet properties p v
  | .add p v =>
      let existing := (recordGet properties p).getD []
      recordSet properties p (existing ++ v)
  | .delete p value =>
      match value with
      | some vs =>
          if vs.length > 0 then
            let currentValues := (recordGet properties p).getD []
            let updated := currentValues.filter
              (fun v => ! vs.any (fun deleteVal => v.stringify == deleteVal.stringify))
            if updated.length > 0 then recordSet properties p updated
            else removeProperty properties p
          else removeProperty properties p
      | none => removeProperty properties p

/-! ## Claim C1: value-scoped delete -/

/-- Modelled from the spec: the value sequence the spec's words predict for
property `p` after `Delete\x7bp, V\x7d` — exactly those current elements that are
deeply structurally equal (recursive value equality) to no element of `V`. -/
def specDeleteKept (props : PropertyBag) (p : String) (V : List Value) : List Value :=
  ((recordGet props p).getD []).filter (fun v => ! V.any (fun d => Value.deepEqual v d))

/-- Modelled from the spec: the spec-predicted mapping of `p` after
`Delete\x7bp, V\x7d` — the kept sequence, or removal when it is empty. -/
def specDeleteLookup (props : PropertyBag) (p : String) (V : List Value) : Option (List Value) :=
  let kept := specDeleteKept props p V
  if kept.isEmpty then none else some kept

/-- Photo entry `\x7burl: "a", alt: "x"\x7d` with fields in url-first order. -/
def photoAX : Value := .obj (.fcons "url" (.str "a") (.fcons "alt" (.str "x") .fnil))

/-- The same photo entry with its fields in the opposite insertion order. -/
def photoXA : Value := .obj (.fcons "alt" (.str "x") (.fcons "url" (.str "a") .fnil))

/-- Photo entry `\x7burl: "b", alt: "y"\x7d`. -/
def photoBY : Value := .obj (.fcons "url" (.str "b") (.fcons "alt" (.str "y") .fnil))

/-- Claim C1 fails on the code: deleting `\x7balt:"x", url:"a"\x7d` from
`photo: [\x7burl:"a", alt:"x"\x7d]` should, per the claim's deep structural
equality (the two objects are deeply equal, differing only in field order),
empty the sequence and remove the property; the code compares
`JSON.stringify` serializations, which are sensitive to field order, so it
keeps the element and the property survives. -/
theorem applyOperation_delete_not_deep_equality :
    Value.deepEqual photoAX photoXA = true ∧
    specDeleteLookup [("photo", [photoAX])] "photo" [photoXA] = none ∧
    (recordGet (applyOperation [("photo", [photoAX])]
        (.delete "photo" (some [photoXA]))) "photo").isSome = true := by
  refine ⟨by decide, by rfl, by rfl⟩

/-- Claim C1 amended: for a NONEMPTY value list `V`, applying
`Delete\x7bp, V\x7d` yields a bag whose sequence for `p` contains exactly those
elements of the current sequence whose `JSON.stringify` serialization
equals that of no element of `V` (deep value equality up to object field
order; field-order-insensitive matches are not deleted); if the resulting
sequence is empty the property is removed entirely.  (A `Delete` whose map
entry carries an empty list removes the property entirely.) -/
theorem applyOperation_delete_values (props : PropertyBag) (p : String) (V : List Value)
    (hV : V ≠ []) :
    recordGet (applyOperation props (.delete p (some V))) p =
      (let kept := ((recordGet props p).getD []).filter
          (fun v => ! V.any (fun deleteVal => v.stringify == deleteVal.stringify));
        if kept.length > 0 then some kept else none) := by
  have hlen : V.length > 0 := List.length_pos.mpr hV
  unfold applyOperation
  simp only [if_pos hlen]
  set kept := ((recordGet props p).getD []).filter
    (fun v => ! V.any (fun deleteVal => v.stringify == deleteVal.stringify)) with hkept
  by_cases hk : kept.length > 0
  · simp only [if_pos hk]
    exact recordGet_recordSet_self props p kept
  · simp only [if_neg hk]
    exact recordGet_recordRemove_self props p

/-- Concrete instance of the amended C1: deleting `\x7burl:"a", alt:"x"\x7d`
(with matching field order) from `photo: [\x7burl:"a",alt:"x"\x7d, \x7burl:"b",alt:"y"\x7d]`
keeps exactly `[\x7burl:"b",alt:"y"\x7d]`. -/
theorem applyOperation_delete_values_witness :
    recordGet (applyOperation [("photo", [photoAX, photoBY])]
        (.delete "photo" (some [photoAX]))) "photo" = some [photoBY] := by
  have h := applyOperation_delete_values [("photo", [photoAX, photoBY])] "photo" [photoAX]
    (by simp)
  simpa using h

/-! ## Claim C3: replace, add, whole-property delete -/

/-- Claim C3: `Replace\x7bp, V\x7d` makes `p` map exactly to `V`; `Add\x7bp, V\x7d` makes
`p` map to the previous sequence (empty when absent) followed by `V`, with
no deduplication; `Delete\x7bp\x7d` without values leaves `p` absent regardless of
prior content. -/
theorem applyOperation_replace_add_delete (props : PropertyBag) (p : String) (V : List Value) :
    recordGet (applyOperation props (.replace p V)) p = some V ∧
    recordGet (applyOperation props (.add p V)) p =
      some (((recordGet props p).getD []) ++ V) ∧
    recordGet (applyOperation props (.delete p none)) p = none := by
  refine ⟨?_, ?_, ?_⟩
  · exact recordGet_recordSet_self props p V
  · exact recordGet_recordSet_self props p _
  · exact recordGet_recordRemove_self props p

/-! ## Claim C2: deriving operations from an update request -/

/-- An update request after schema validation (`micropubUpdateSchema` in
`src/validators/micropub.ts`): optional `replace` and `add` record clauses,
and an optional `delete` clause that is either an array of property names
or a record of property-to-value-list entries.  Records are embedded as
association lists in iteration (insertion) order. -/
structure MicropubUpdateRequest where
  url : String
  replace : Option (List (String × List Value))
  add : Option (List (String × List Value))
  delete : Option (List String ⊕ List (String × List Value))

/-- Embedding of `convertToUpdateOperations` from
`src/validators/micropub.ts`: push `replace` operations, then `add`
operations, then `delete` operations (array form without values, map form
with the entry's value list) onto an initially empty operations array. -/
def convertToUpdateOperations (update : MicropubUpdateRequest) : List UpdateOperation :=
  let operations : List UpdateOperation := []
  let operations := match update.replace with
    | some entries =>
        entries.foldl (fun acc pv => acc ++ [.replace pv.1 pv.2]) operations
    | none => operations
  let operations := match update.add with
    | some entries =>
        entries.foldl (fun acc pv => acc ++ [.add pv.1 pv.2]) operations
    | none => operations
  let operations := match update.delete with
    | some (.inl names) =>
        names.foldl (fun acc p => acc ++ [.delete p none]) operations
    | some (.inr entries) =>
        entries.foldl (fun acc pv => acc ++ [.delete pv.1 (some pv.2)]) operations
    | none => operations
  operations

theorem foldl_push_eq_append_map {α β : Type} (f : α → β) (l : List α) (acc : List β) :
    l.foldl (fun a x => a ++ [f x]) acc = acc ++ l.map f := by
  induction l generalizing acc with
  | nil => simp
  | cons x xs ih => simp [List.foldl_cons, ih]

/-- Claim C2: the derived operation sequence is exactly the `replace`
entries (as Replace operations), then the `add` entries (as Add
operations), then the `delete` entries — whole-property Delete operations
without values for the array form, value-scoped Delete operations with the
entry's value list for the map form — each clause in the mapping's
iteration order. -/
theorem convertToUpdateOperations_ordering (update : MicropubUpdateRequest) :
    convertToUpdateOperations update =
      (update.replace.getD []).map (fun pv => .replace pv.1 pv.2) ++
      (update.add.getD []).map (fun pv => .add pv.1 pv.2) ++
      (match update.delete with
        | some (.inl names) => names.map (fun p => .delete p none)
        | some (.inr entries) => entries.map (fun pv => .delete pv.1 (some pv.2))
        | none => []) := by
  unfold convertToUpdateOperations
  rcases update with ⟨url, rep, add, del⟩
  rcases rep with _ | repEntries <;> rcases add with _ | addEntries <;>
    rcases del with _ | (names | delEntries) <;>
    simp [foldl_push_eq_append_map]

/-! ## Claim C8: scope membership -/

/-- Split a character list at every separator satisfying `p`, as the JS
`String.prototype.split` does: every separator splits, adjacent separators
produce empty tokens, and the empty input yields one empty token. -/
def splitChars (p : Char → Bool) : List Char → List (List Char)
  | [] => [[]]
  | c :: rest =>
      let r := splitChars p rest
      if p c then [] :: r
      else
        match r with
        | [] => [[c]]
        | t :: ts => (c :: t) :: ts

/-- Embedding of the JS `scopeString.split(" ")`: split at every single
space character. -/
def splitOnSpaceJS (s : String) : List String :=
  (splitChars (fun c => c == ' ') s.data).map (fun cs => String.mk cs)

/-- Embedding of `hasScope` from `src/validators/scopes.ts`:
`scopeString.split(" ").filter(Boolean).includes(requiredScope)` —
`filter(Boolean)` drops empty strings, `includes` is exact string
membership. -/
def hasScope (scopeString requiredScope : String) : Bool :=
  ((splitOnSpaceJS scopeString).filter (fun t => t ≠ "")).contains requiredScope

/-- Modelled from the spec: the whitespace-delimited tokens of a scope
string (splitting at every whitespace character, not only spaces). -/
def whitespaceTokens (s : String) : List String :=
  ((splitChars (fun c => c.isWhitespace) s.data).map (fun cs => String.mk cs)).filter
    (fun t => t ≠ "")

/-- Claim C8 fails on the code: "media" occurs as a whitespace-delimited
token of the scope string "create\tmedia" (tab is whitespace), yet
`hasScope` returns false, because the source splits the scope string at
space characters only. -/
theorem hasScope_not_whitespace_tokens :
    (whitespaceTokens "create\tmedia").contains "media" = true ∧
    hasScope "create\tmedia" "media" = false := by
  refine ⟨by decide, by decide⟩

/-- Claim C8 amended: `hasScope s r` is true iff `r` occurs as a SPACE
(U+0020)-delimited token of `s` (tokens produced by splitting at every
space, empty tokens discarded), with exact string matching and no case
normalization; in particular the empty scope string never satisfies any
requirement. -/
theorem hasScope_iff_space_token (s r : String) :
    (hasScope s r = true ↔ (r ∈ splitOnSpaceJS s ∧ r ≠ "")) ∧
    hasScope "" r = false := by
  constructor
  · simp [hasScope, List.contains, List.elem_eq_mem, List.mem_filter, and_comm]
  · have hsplit : splitOnSpaceJS "" = [""] := rfl
    unfold hasScope
    rw [hsplit]
    simp

/-- Concrete instance of the amended C8: "media" is a space-delimited token
of "create media" and `hasScope` accepts it, while the empty scope string
satisfies nothing. -/
theorem hasScope_iff_space_token_witness :
    ((hasScope "create media" "media" = true ↔
        ("media" ∈ splitOnSpaceJS "create media" ∧ ("media" : String) ≠ "")) ∧
      hasScope "" "media" = false) ∧
    hasScope "create media" "media" = true :=
  ⟨hasScope_iff_space_token "create media" "media", by decide⟩

/-! ## Claims C9 and C10: the form-encoded parser

Embedding of `parseFormEncoded` and `formToMicroformats` from
`src/lib/parsers.ts`.  The `URLSearchParams` platform decoding is embedded
for the body fragment the source exercises: pairs split at `&` (empty
segments skipped), key and value split at the first `=`, `+` decoded to a
space (percent-escapes do not occur in the modelled bodies). -/

/-- A slot of the parse result: JS stores either a scalar string or an
array of strings. -/
inductive FormValue where
  | scalar : String → FormValue
  | arr : List String → FormValue
deriving DecidableEq

/-- JS truthiness of a parse-result slot: the empty string is falsy; every
array (even the empty one) is truthy. -/
def FormValue.truthy : FormValue → Bool
  | .scalar s => s ≠ ""
  | .arr _ => true

/-- The parse result: `Record<string, unknown>` in the source. -/
abbrev FormMap := List (String × FormValue)

/-- Split a segment at the first `=`: key characters and value characters
(everything, including later `=`, belongs to the value; a segment without
`=` has the empty value). -/
def splitFirstEq : List Char → List Char × List Char
  | [] => ([], [])
  | c :: rest =>
      if c = '=' then ([], rest)
      else
        let kv := splitFirstEq rest
        (c :: kv.1, kv.2)

/-- Decode a form component: `+` becomes a space. -/
def decodeComponent (cs : List Char) : String :=
  String.mk (cs.map (fun c => if c = '+' then ' ' else c))

/-- Decode a body into its ordered key/value pairs, as `URLSearchParams`
enumerates them. -/
def decodePairs (body : String) : List (String × String) :=
  ((splitChars (fun c => c == '&') body.data).filter (fun seg => seg ≠ [])).map
    (fun seg =>
      let kv := splitFirstEq seg
      (decodeComponent kv.1, decodeComponent kv.2))

/-- JS `key.endsWith("[]")`: at least two characters and the last two are
`[]`. -/
def endsBrackets (cs : List Char) : Bool :=
  decide (2 ≤ cs.length) && (cs.drop (cs.length - 2) == ['[', ']'])

/-- JS `key.slice(0, -2)`: drop the trailing `[]`. -/
def stripBrackets (cs : List Char) : List Char :=
  cs.take (cs.length - 2)

/-- One iteration of the `parseFormEncoded` loop over a decoded pair.  A
key ending in `[]` accumulates under the stripped key: a missing or falsy
slot is first reset to `[]`, then the value is pushed — pushing onto a
truthy scalar slot (a nonempty string) is a JS `TypeError`, embedded as an
error.  A plain key stores a scalar on first occurrence, converts the slot
to a two-element array on the second, and appends afterwards. -/
def parseStep (result : FormMap) (kv : String × String) : Except Unit FormMap :=
  let key := kv.1
  let value := kv.2
  if endsBrackets key.data then
    let actualKey := String.mk (stripBrackets key.data)
    match recordGet result actualKey with
    | none => .ok (recordSet result actualKey (.arr [value]))
    | some fv =>
        if fv.truthy then
          match fv with
          | .arr l => .ok (recordSet result actualKey (.arr (l ++ [value])))
          | .scalar _ => .error ()
        else .ok (recordSet result actualKey (.arr [value]))
  else
    match recordGet result key with
    | some (.arr l) => .ok (recordSet result key (.arr (l ++ [value])))
    | some (.scalar s) => .ok (recordSet result key (.arr [s, value]))
    | none => .ok (recordSet result key (.scalar value))

/-- Embedding of `parseFormEncoded` from `src/lib/parsers.ts`, with the JS
`TypeError` raised by pushing onto a string embedded as `Except.error`. -/
def parseFormEncoded (body : String) : Except Unit FormMap :=
  (decodePairs body).foldlM parseStep []

/-- A Microformats2 entry: a type-tag list and the property bag, here with
string-valued properties as produced from form data. -/
structure FormEntry where
  type : List String
  properties : List (String × List String)
deriving DecidableEq

/-- JS template-literal stringification of a parse-result slot (an array
joins its elements with commas). -/
def FormValue.toTemplateString : FormValue → String
  | .scalar s => s
  | .arr l => String.intercalate "," l

/-- Embedding of `formToMicroformats` from `src/lib/parsers.ts`: the type
tag is `h-` followed by `data.h || "entry"`; the `h` and `action` keys are
dropped; every remaining value is wrapped into an array unless it already
is one. -/
def formToMicroformats (data : FormMap) : FormEntry :=
  let hValue := match recordGet data "h" with
    | some fv => if fv.truthy then fv.toTemplateString else "entry"
    | none => "entry"
  { type := ["h-" ++ hValue]
    properties :=
      (data.filter (fun kv => kv.1 ≠ "h" ∧ kv.1 ≠ "action")).map
        (fun kv => (kv.1, match kv.2 with | .arr l => l | .scalar s => [s])) }

/-- Claim C9: `category[]=a&category[]=b` parses to a two-element sequence;
`tag=a&tag=b` without brackets also does (scalar first, converted on the
second occurrence, appended on the third); a single `content=x` parses to
the scalar `"x"`, and `formToMicroformats` wraps it into `["x"]` while
dropping the `h` key. -/
theorem parseFormEncoded_examples :
    parseFormEncoded "category[]=a&category[]=b" = .ok [("category", .arr ["a", "b"])] ∧
    parseFormEncoded "tag=a&tag=b" = .ok [("tag", .arr ["a", "b"])] ∧
    parseFormEncoded "tag=a&tag=b&tag=c" = .ok [("tag", .arr ["a", "b", "c"])] ∧
    parseFormEncoded "content=x" = .ok [("content", .scalar "x")] ∧
    (parseFormEncoded "h=entry&content=x").map formToMicroformats =
      .ok { type := ["h-entry"], properties := [("content", ["x"])] } := by
  refine ⟨by rfl, by rfl, by rfl, by rfl, by rfl⟩

/-- Claim C10 fails on the code: on the body `tag=a&tag[]=b` — the plain
form first, the bracket form second, for the same base key — the loop
calls `.push` on the string stored for `tag`, a JS `TypeError`:
`parseFormEncoded` throws instead of returning. -/
theorem parseFormEncoded_throws_on_plain_then_bracket :
    parseFormEncoded "tag=a&tag[]=b" = .error () := by rfl

/-- Check of a decoded pair list: no plain-form key occurs before a
bracket-form occurrence of the same base key. -/
def noPlainThenBracket : List (String × String) → Bool
  | [] => true
  | (k, _) :: rest =>
      (endsBrackets k.data || ! rest.any (fun kv2 => kv2.1 == k ++ "[]")) &&
      noPlainThenBracket rest

theorem mk_stripBrackets_append (k : String) (h : endsBrackets k.data = true) :
    String.mk (stripBrackets k.data) ++ "[]" = k := by
  have h2 : stripBrackets k.data ++ ['[', ']'] = k.data := by
    unfold endsBrackets at h
    rw [Bool.and_eq_true, decide_eq_true_eq, beq_iff_eq] at h
    conv_lhs => rw [stripBrackets, ← h.2]
    exact List.take_append_drop _ _
  calc String.mk (stripBrackets k.data) ++ "[]"
      = String.mk (stripBrackets k.data ++ ['[', ']']) := rfl
    _ = String.mk k.data := by rw [h2]
    _ = k := rfl

theorem parseSteps_ok (ps : List (String × String)) (m : FormMap)
    (hsafe : ∀ k v2, (k ++ "[]", v2) ∈ ps →
      match recordGet m k with
      | some (.scalar s) => s = ""
      | _ => True)
    (hmix : noPlainThenBracket ps = true) :
    ∃ m2, ps.foldlM parseStep m = .ok m2 := by
  induction ps generalizing m with
  | nil => exact ⟨m, rfl⟩
  | cons kv rest ih =>
      obtain ⟨k, v⟩ := kv
      rw [noPlainThenBracket, Bool.and_eq_true] at hmix
      obtain ⟨hhead, htail⟩ := hmix
      by_cases hb : endsBrackets k.data = true
      · have hkey : String.mk (stripBrackets k.data) ++ "[]" = k :=
          mk_stripBrackets_append k hb
        have hcur := hsafe (String.mk (stripBrackets k.data)) v
          (by rw [hkey]; exact List.mem_cons_self _ _)
        have hstep : ∃ l, parseStep m (k, v) =
            .ok (recordSet m (String.mk (stripBrackets k.data)) (.arr l)) := by
          unfold parseStep
          dsimp only
          rw [if_pos hb]
          cases hget : recordGet m (String.mk (stripBrackets k.data)) with
          | none => exact ⟨[v], rfl⟩
          | some fv =>
              cases fv with
              | scalar s =>
                  rw [hget] at hcur
                  have hs : s = "" := hcur
                  refine ⟨[v], ?_⟩
                  simp [FormValue.truthy, hs]
              | arr l => exact ⟨l ++ [v], rfl⟩
        obtain ⟨l, hstep⟩ := hstep
        rw [List.foldlM_cons, hstep]
        show ∃ m2, rest.foldlM parseStep
          (recordSet m (String.mk (stripBrackets k.data)) (.arr l)) = .ok m2
        apply ih
        · intro k2 v2 hmem
          by_cases hk2 : k2 = String.mk (stripBrackets k.data)
          · rw [hk2, recordGet_recordSet_self]
            trivial
          · rw [recordGet_recordSet_ne _ _ _ _ hk2]
            exact hsafe k2 v2 (List.mem_cons_of_mem _ hmem)
        · exact htail
      · have hb2 : endsBrackets k.data = false := by
          cases hEB : endsBrackets k.data with
          | false => rfl
          | true => exact absurd hEB hb
        have hnoany : rest.any (fun kv2 => kv2.1 == k ++ "[]") = false := by
          rw [hb2, Bool.false_or] at hhead
          simpa using hhead
        have hstep : ∃ fv, parseStep m (k, v) = .ok (recordSet m k fv) := by
          unfold parseStep
          dsimp only
          rw [if_neg hb]
          cases hget : recordGet m k with
          | none => exact ⟨.scalar v, rfl⟩
          | some fv =>
              cases fv with
              | scalar s => exact ⟨.arr [s, v], rfl⟩
              | arr l => exact ⟨.arr (l ++ [v]), rfl⟩
        obtain ⟨fv, hstep⟩ := hstep
        rw [List.foldlM_cons, hstep]
        show ∃ m2, rest.foldlM parseStep (recordSet m k fv) = .ok m2
        apply ih
        · intro k2 v2 hmem
          by_cases hk2 : k2 = k
          · exfalso
            have hany : rest.any (fun kv2 => kv2.1 == k ++ "[]") = true := by
              refine List.any_eq_true.mpr ⟨(k2 ++ "[]", v2), hmem, ?_⟩
              simp [hk2]
            rw [hany] at hnoany
            exact Bool.noConfusion hnoany
          · rw [recordGet_recordSet_ne _ _ _ _ hk2]
            exact hsafe k2 v2 (List.mem_cons_of_mem _ hmem)
        · exact htail

/-- Claim C10 amended: `parseFormEncoded` returns normally with a map from
keys to a string or a list of strings for every body in which no
plain-form occurrence of a base key precedes a bracket-form occurrence
(`k[]`) of the same base key — mixing in the other order (bracket form
first) is safe; a plain `k=v` with nonempty accumulated value followed by
`k[]=w` raises a JS `TypeError` (push on a string) instead of returning. -/
theorem parseFormEncoded_ok_of_no_plain_then_bracket (body : String)
    (h : noPlainThenBracket (decodePairs body) = true) :
    ∃ m, parseFormEncoded body = .ok m := by
  unfold parseFormEncoded
  exact parseSteps_ok (decodePairs body) [] (by intro k v2 hmem; exact trivial) h

/-- Concrete instance of the amended C10: mixing bracket form before plain
form for the same base key parses without an error. -/
theorem parseFormEncoded_ok_witness :
    noPlainThenBracket (decodePairs "tag[]=a&tag=b") = true ∧
    ∃ m, parseFormEncoded "tag[]=a&tag=b" = .ok m :=
  ⟨by decide, parseFormEncoded_ok_of_no_plain_then_bracket "tag[]=a&tag=b" (by decide)⟩

/-! ## Claim C4: token verification and the in-memory cache

Embedding of `TokenCache` and `verifyToken` from
`src/lib/token-verification.ts`.  Wall-clock time (`Date.now()`,
milliseconds) is an explicit argument; the network call is an oracle
argument (`none` for timeout, non-2xx, or malformed JSON); the returned
triple carries the number of external introspection calls performed.  The
`setTimeout`-based eviction only frees memory after the TTL, when `get`
already reports a miss, and is not modelled. -/

/-- `TokenVerificationResult` from `src/types/micropub.ts`. -/
structure TokenVerificationResult where
  active : Bool
  me : String
  client_id : String
  scope : String
  exp : Option Nat
deriving DecidableEq

/-- A cache slot: the verification result plus the TTL-derived wall-clock
expiry in milliseconds. -/
structure CacheEntry where
  result : TokenVerificationResult
  expiry : Nat
deriving DecidableEq

/-- The process-wide token cache, keyed by the raw token string. -/
abbrev TokenCacheState := List (String × CacheEntry)

/-- The check `result.exp && result.exp < Date.now() / 1000` from the
source: a present and truthy (nonzero) `exp`, in epoch seconds, lying
strictly before `now` (epoch milliseconds) divided by 1000; the
real-number comparison `e < now / 1000` is embedded as `1000 * e < now`. -/
def expPassed (exp : Option Nat) (now : Nat) : Bool :=
  match exp with
  | some e => (e != 0) && decide (1000 * e < now)
  | none => false

/-- Embedding of `TokenCache.set`: store the result under the token with a
wall-clock expiry `now + ttlSeconds * 1000`. -/
def tokenCacheSet (cache : TokenCacheState) (token : String)
    (result : TokenVerificationResult) (ttlSeconds : Nat) (now : Nat) : TokenCacheState :=
  recordSet cache token { result := result, expiry := now + ttlSeconds * 1000 }

/-- Embedding of `TokenCache.get`: a missing entry is a miss; an entry past
its wall-clock expiry, or whose result's own truthy `exp` has passed, is
deleted and reported as a miss; otherwise the stored result is returned
with the cache unchanged. -/
def tokenCacheGet (cache : TokenCacheState) (token : String) (now : Nat) :
    Option TokenVerificationResult × TokenCacheState :=
  match recordGet cache token with
  | none => (none, cache)
  | some entry =>
      if now > entry.expiry then (none, recordRemove cache token)
      else if expPassed entry.result.exp now then (none, recordRemove cache token)
      else (some entry.result, cache)

/-- The JSON body of a 2xx introspection response, fields possibly absent. -/
structure IntrospectionData where
  me : Option String
  scope : Option String
  client_id : Option String
  exp : Option Nat
deriving DecidableEq

/-- JS truthiness of an optional string: absent or empty is falsy. -/
def truthyStr : Option String → Bool
  | none => false
  | some s => s ≠ ""

/-- JS `x || d` on an optional string: absent or empty falls back to `d`. -/
def jsOrStr (x : Option String) (d : String) : String :=
  match x with
  | some s => if s = "" then d else s
  | none => d

/-- The verification result `verifyToken` builds from a 2xx introspection
body: `active: true`, `me` and `scope` as returned, `client_id || ""`, and
the body's `exp`. -/
def introspectionResult (data : IntrospectionData) : TokenVerificationResult :=
  { active := true
    me := data.me.getD ""
    client_id := jsOrStr data.client_id ""
    scope := data.scope.getD ""
    exp := data.exp }

/-- Embedding of `String.prototype.trim` over the character list. -/
def trimChars (cs : List Char) : List Char :=
  ((cs.dropWhile (fun c => c.isWhitespace)).reverse.dropWhile (fun c => c.isWhitespace)).reverse

/-- Trim surrounding whitespace from a string. -/
def jsTrim (s : String) : String :=
  String.mk (trimChars s.data)

/-- The fresh-introspection path of `verifyToken` (the code after a cache
miss): a failed fetch, a body missing a truthy `me` or `scope`, or an
already-elapsed `exp` yield `null` without caching; otherwise the built
result is cached with the configured TTL and returned.  The third
component counts the external introspection call this path performs. -/
def verifyTokenFresh (cache : TokenCacheState) (now : Nat)
    (fetchResult : Option IntrospectionData) (token : String) (cacheTTL : Nat) :
    Option TokenVerificationResult × TokenCacheState × Nat :=
  match fetchResult with
  | none => (none, cache, 1)
  | some data =>
      if !(truthyStr data.me && truthyStr data.scope) then (none, cache, 1)
      else
        let result := introspectionResult data
        if expPassed result.exp now then (none, cache, 1)
        else (some result, tokenCacheSet cache token result cacheTTL now, 1)

/-- Embedding of `verifyToken` from `src/lib/token-verification.ts`: an
empty (after trimming) token fails without an external call; a cache hit
returns the cached result without an external call; otherwise the fresh
introspection path runs. -/
def verifyToken (cache : TokenCacheState) (now : Nat)
    (fetchResult : Option IntrospectionData) (token : String) (cacheTTL : Nat) :
    Option TokenVerificationResult × TokenCacheState × Nat :=
  if jsTrim token = "" then (none, cache, 0)
  else
    match tokenCacheGet cache token now with
    | (some cached, cache2) => (some cached, cache2, 0)
    | (none, cache2) => verifyTokenFresh cache2 now fetchResult token cacheTTL

theorem verifyTokenFresh_calls (cache : TokenCacheState) (now : Nat)
    (fetchResult : Option IntrospectionData) (token : String) (cacheTTL : Nat) :
    (verifyTokenFresh cache now fetchResult token cacheTTL).2.2 = 1 := by
  unfold verifyTokenFresh
  cases fetchResult with
  | none => rfl
  | some data =>
      dsimp only
      by_cases h1 : (!(truthyStr data.me && truthyStr data.scope)) = true
      · rw [if_pos h1]
      · rw [if_neg h1]
        by_cases h2 : expPassed (introspectionResult data).exp now = true
        · rw [if_pos h2]
        · rw [if_neg h2]

/-- Claim C4: after a first `verify` call at `t1` that misses the cache and
succeeds against the introspection endpoint (one external call, result
cached), a second call at any `t2` within the TTL window whose token `exp`
has not passed returns the cached result with ZERO external calls — its
outcome does not even depend on the network oracle — so the two calls
issue exactly one external call; while a second call after the TTL window
(`t2 > t1 + ttl·1000`), or after the token's own `exp` has passed,
performs a fresh external introspection call. -/
theorem verifyToken_cache_behavior (cache : TokenCacheState) (token : String)
    (data : IntrospectionData) (ttl t1 : Nat)
    (htoken : jsTrim token ≠ "")
    (hmiss : recordGet cache token = none)
    (hme : truthyStr data.me = true)
    (hscope : truthyStr data.scope = true)
    (hexp1 : expPassed data.exp t1 = false) :
    (verifyToken cache t1 (some data) token ttl =
      (some (introspectionResult data),
        tokenCacheSet cache token (introspectionResult data) ttl t1, 1)) ∧
    (∀ t2 fetch2, ¬ t2 > t1 + ttl * 1000 → expPassed data.exp t2 = false →
      verifyToken (tokenCacheSet cache token (introspectionResult data) ttl t1) t2 fetch2
          token ttl =
        (some (introspectionResult data),
          tokenCacheSet cache token (introspectionResult data) ttl t1, 0)) ∧
    (∀ t2 fetch2, t2 > t1 + ttl * 1000 →
      (verifyToken (tokenCacheSet cache token (introspectionResult data) ttl t1) t2 fetch2
          token ttl).2.2 = 1) ∧
    (∀ t2 fetch2, expPassed data.exp t2 = true →
      (verifyToken (tokenCacheSet cache token (introspectionResult data) ttl t1) t2 fetch2
          token ttl).2.2 = 1) := by
  have hresexp : (introspectionResult data).exp = data.exp := rfl
  refine ⟨?_, ?_, ?_, ?_⟩
  · unfold verifyToken tokenCacheGet
    rw [if_neg htoken, hmiss]
    unfold verifyTokenFresh
    dsimp only
    simp [hme, hscope, hresexp, hexp1]
  · intro t2 fetch2 hle hexp2
    unfold verifyToken tokenCacheGet tokenCacheSet
    rw [if_neg htoken, recordGet_recordSet_self]
    dsimp only
    rw [if_neg hle, hresexp, hexp2]
    rfl
  · intro t2 fetch2 hgt
    unfold verifyToken tokenCacheGet tokenCacheSet
    rw [if_neg htoken, recordGet_recordSet_self]
    dsimp only
    rw [if_pos hgt]
    exact verifyTokenFresh_calls _ _ _ _ _
  · intro t2 fetch2 hexp2
    unfold verifyToken tokenCacheGet tokenCacheSet
    rw [if_neg htoken, recordGet_recordSet_self]
    dsimp only
    by_cases hgt : t2 > t1 + ttl * 1000
    · rw [if_pos hgt]
      exact verifyTokenFresh_calls _ _ _ _ _
    · rw [if_neg hgt,
        if_pos (show expPassed (introspectionResult data).exp t2 = true from by
          rw [hresexp]; exact hexp2)]
      exact verifyTokenFresh_calls _ _ _ _ _

/-- Concrete instance of C4: the token "tok", introspected successfully at
time 5000 with scope "create media" and no `exp`, is served from the cache
at any time within the 120-second TTL window with no further external
call, and freshly re-introspected after the window. -/
theorem verifyToken_cache_behavior_witness :
    (verifyToken [] 5000 (some ⟨some "https://me.example", some "create media", none, none⟩)
        "tok" 120 =
      (some (introspectionResult ⟨some "https://me.example", some "create media", none, none⟩),
        tokenCacheSet [] "tok"
          (introspectionResult ⟨some "https://me.example", some "create media", none, none⟩)
          120 5000, 1)) ∧
    (∀ t2 fetch2, ¬ t2 > 5000 + 120 * 1000 →
      expPassed (none : Option Nat) t2 = false →
      verifyToken
          (tokenCacheSet [] "tok"
            (introspectionResult ⟨some "https://me.example", some "create media", none, none⟩)
            120 5000) t2 fetch2 "tok" 120 =
        (some (introspectionResult ⟨some "https://me.example", some "create media", none, none⟩),
          tokenCacheSet [] "tok"
            (introspectionResult ⟨some "https://me.example", some "create media", none, none⟩)
            120 5000, 0)) ∧
    (∀ t2 fetch2, t2 > 5000 + 120 * 1000 →
      (verifyToken
          (tokenCacheSet [] "tok"
            (introspectionResult ⟨some "https://me.example", some "create media", none, none⟩)
            120 5000) t2 fetch2 "tok" 120).2.2 = 1) ∧
    (∀ t2 fetch2, expPassed (none : Option Nat) t2 = true →
      (verifyToken
          (tokenCacheSet [] "tok"
            (introspectionResult ⟨some "https://me.example", some "create media", none, none⟩)
            120 5000) t2 fetch2 "tok" 120).2.2 = 1) :=
  verifyToken_cache_behavior [] "tok" ⟨some "https://me.example", some "create media", none, none⟩
    120 5000 (by decide) (by decide) (by decide) (by decide) (by decide)

/-! ## HTTP response shaping

The response fields the modelled handlers shape: status, JSON error code
and description, the WWW-Authenticate challenge, and the Location header.
CORS decoration applies uniformly to every response and is outside the
claims settled here. -/

/-- The observable shape of a handler response. -/
structure HttpResponse where
  status : Nat
  error : Option String
  errorDescription : Option String
  wwwAuthenticate : Option String
  location : Option String
deriving DecidableEq

/-- Embedding of `createAuthError` from `src/lib/utils.ts`: a 401/403 with
an RFC 6750 `WWW-Authenticate` challenge built from the error code, the
optional description, and the optional required scope; the body is empty. -/
def createAuthError (status : Nat) (error : String) (errorDescription : Option String)
    (scope : Option String) : HttpResponse :=
  let www := "Bearer realm=\"micropub\", error=\"" ++ error ++ "\""
  let www := match errorDescription with
    | some d => www ++ ", error_description=\"" ++ d ++ "\""
    | none => www
  let www := match scope with
    | some sc => www ++ ", scope=\"" ++ sc ++ "\""
    | none => www
  { status := status, error := none, errorDescription := none,
    wwwAuthenticate := some www, location := none }

/-- Embedding of `createErrorResponse` from `src/lib/utils.ts`: a JSON body
with the error code and optional description. -/
def createErrorResponse (status : Nat) (error : String)
    (errorDescription : Option String) : HttpResponse :=
  { status := status, error := some error, errorDescription := errorDescription,
    wwwAuthenticate := none, location := none }

/-! ## Claims C5 and C7: the media upload handler -/

/-- The resolved security configuration section
(`ResolvedConfig["security"]`). -/
structure ResolvedSecurity where
  requireScope : Bool
  allowedOrigins : List String
  maxUploadSize : Nat
  allowedMimeTypes : List String
deriving DecidableEq

/-- An uploaded file as the media route reads it from the form data. -/
structure FileUpload where
  name : String
  size : Nat
  mime : String
deriving DecidableEq

/-- Outcome of the media POST pipeline: an early HTTP response, or the
`saveFile` media-adapter invocation (after which the handler answers 201
with the adapter's returned URL as Location). -/
inductive MediaResult where
  | response (r : HttpResponse)
  | saveFile (file : FileUpload)
deriving DecidableEq

/-- Whether the outcome reaches the media adapter. -/
def MediaResult.callsAdapter : MediaResult → Bool
  | .response _ => false
  | .saveFile _ => true

/-- JS `x || d` on an optional number: absent or zero (falsy) falls back. -/
def jsOrNat (x : Option Nat) (d : Nat) : Nat :=
  match x with
  | some n => if n = 0 then d else n
  | none => d

/-- JS `x || d` on an optional list: absent falls back; an array — even the
empty one — is truthy and is kept. -/
def jsOrList (x : Option (List String)) (d : List String) : List String :=
  x.getD d

/-- Embedding of the media `POST` handler from `src/routes/media.ts`, up to
the `saveFile` call: 401 without a verified token; 403 `insufficient_scope`
with challenge scope `media` when scope enforcement is on and the token's
scope string lacks the `media` token; 400 without a file; 413 above
`maxUploadSize || 10 MiB`; 415 for a MIME type outside
`allowedMimeTypes || [jpeg, png, gif, webp]`; otherwise the adapter call.
The security section is optional because `getRuntimeConfig()` can produce
a configuration without it. -/
def mediaPost (security : Option ResolvedSecurity)
    (auth : Option TokenVerificationResult) (file : Option FileUpload) : MediaResult :=
  match auth with
  | none => .response (createAuthError 401 "invalid_token" none none)
  | some verification =>
      if (security.map (fun s => s.requireScope)).getD false
          && !hasScope verification.scope "media" then
        .response (createAuthError 403 "insufficient_scope" none (some "media"))
      else
        match file with
        | none =>
            .response (createErrorResponse 400 "invalid_request" (some "No file provided"))
        | some f =>
            let maxSize := jsOrNat (security.map (fun s => s.maxUploadSize)) (10 * 1024 * 1024)
            if f.size > maxSize then
              .response (createErrorResponse 413 "invalid_request"
                (some ("File exceeds maximum size of " ++ toString maxSize ++ " bytes")))
            else
              let allowedTypes := jsOrList (security.map (fun s => s.allowedMimeTypes))
                ["image/jpeg", "image/png", "image/gif", "image/webp"]
              if !allowedTypes.contains f.mime then
                .response (createErrorResponse 415 "invalid_request"
                  (some ("File type " ++ f.mime ++ " is not allowed")))
              else .saveFile f

/-- Claim C5: with scope enforcement on and a verified token whose scope
string lacks the `media` token, the media handler answers 403
`insufficient_scope` carrying `scope="media"` in the WWW-Authenticate
challenge, and never reaches the adapter's `saveFile`, whatever file is
attached — in particular for a token with only the `create` scope. -/
theorem mediaPost_requires_media_scope (security : ResolvedSecurity)
    (verification : TokenVerificationResult) (file : Option FileUpload)
    (hreq : security.requireScope = true)
    (hscope : hasScope verification.scope "media" = false) :
    mediaPost (some security) (some verification) file =
      .response (createAuthError 403 "insufficient_scope" none (some "media")) ∧
    (createAuthError 403 "insufficient_scope" none (some "media")).wwwAuthenticate =
      some "Bearer realm=\"micropub\", error=\"insufficient_scope\", scope=\"media\"" ∧
    (mediaPost (some security) (some verification) file).callsAdapter = false := by
  have h1 : mediaPost (some security) (some verification) file =
      .response (createAuthError 403 "insufficient_scope" none (some "media")) := by
    unfold mediaPost
    simp [hreq, hscope]
  exact ⟨h1, rfl, by rw [h1]; rfl⟩

/-- Concrete instance of C5: a token with scope exactly `create` — enough
for post creation — is still rejected by the media endpoint. -/
theorem mediaPost_requires_media_scope_witness :
    mediaPost
        (some { requireScope := true, allowedOrigins := ["*"],
                maxUploadSize := 10485760,
                allowedMimeTypes := ["image/jpeg", "image/png", "image/gif", "image/webp"] })
        (some { active := true, me := "https://me.example", client_id := "",
                scope := "create", exp := none })
        (some { name := "a.png", size := 10, mime := "image/png" }) =
      .response (createAuthError 403 "insufficient_scope" none (some "media")) ∧
    (createAuthError 403 "insufficient_scope" none (some "media")).wwwAuthenticate =
      some "Bearer realm=\"micropub\", error=\"insufficient_scope\", scope=\"media\"" ∧
    (mediaPost
        (some { requireScope := true, allowedOrigins := ["*"],
                maxUploadSize := 10485760,
                allowedMimeTypes := ["image/jpeg", "image/png", "image/gif", "image/webp"] })
        (some { active := true, me := "https://me.example", client_id := "",
                scope := "create", exp := none })
        (some { name := "a.png", size := 10, mime := "image/png" })).callsAdapter = false :=
  mediaPost_requires_media_scope _ _ _ (by decide) (by decide)

/-- User-supplied security options before validation (`SecurityConfig` in
`src/types/config.ts`; every field optional). -/
structure SecurityUserOptions where
  requireScope : Option Bool
  allowedOrigins : Option (List String)
  maxUploadSize : Option Nat
  allowedMimeTypes : Option (List String)
deriving DecidableEq

/-- Embedding of `securityConfigSchema` from `src/validators/config.ts` as
applied by `validateConfig`: the `security` key itself defaults to the
empty object (`securityConfigSchema.optional().default(() => (\x7b\x7d))`), and
zod then fills each absent field with its schema default — the default
MIME allow-list is jpeg/png/gif/webp, with SVG excluded (the schema's own
comment: SVG excluded by default due to XSS risk). -/
def validateSecurity (user : Option SecurityUserOptions) : ResolvedSecurity :=
  let u := user.getD ⟨none, none, none, none⟩
  { requireScope := u.requireScope.getD true
    allowedOrigins := u.allowedOrigins.getD ["*"]
    maxUploadSize := u.maxUploadSize.getD (10 * 1024 * 1024)
    allowedMimeTypes := u.allowedMimeTypes.getD
      ["image/jpeg", "image/png", "image/gif", "image/webp"] }

/-- Embedding of the security-section resolution in `src/integration.ts`
(`validated.security?.X ?? default` for each field) — the fallback list
here would re-admit `image/svg+xml`, but after `validateConfig` the
security section is always present with every field filled, so every `??`
fallback is dead. -/
def integrationResolveSecurity (validated : Option ResolvedSecurity) : ResolvedSecurity :=
  { requireScope := (validated.map (fun s => s.requireScope)).getD true
    allowedOrigins := (validated.map (fun s => s.allowedOrigins)).getD ["*"]
    maxUploadSize := (validated.map (fun s => s.maxUploadSize)).getD (10 * 1024 * 1024)
    allowedMimeTypes := (validated.map (fun s => s.allowedMimeTypes)).getD
      ["image/jpeg", "image/png", "image/gif", "image/webp", "image/svg+xml"] }

/-- The runtime security configuration produced for given user options:
schema validation with defaults, then the integration's resolution. -/
def resolveSecurity (user : Option SecurityUserOptions) : ResolvedSecurity :=
  integrationResolveSecurity (some (validateSecurity user))

/-- Claim C7: a file whose MIME type is outside the effective allow-list is
rejected with status 415 — distinct from the 400/413 conditions — and,
when no allow-list is explicitly configured, the effective allow-list is
the schema default jpeg/png/gif/webp, which excludes `image/svg+xml`, so
an SVG upload is rejected with 415. -/
theorem mediaPost_mime_allowlist (security : Option ResolvedSecurity)
    (verification : TokenVerificationResult) (f : FileUpload)
    (user : Option SecurityUserOptions) (verification2 : TokenVerificationResult)
    (f2 : FileUpload)
    (hscope : ((security.map (fun s => s.requireScope)).getD false
      && !hasScope verification.scope "media") = false)
    (hsize : ¬ f.size > jsOrNat (security.map (fun s => s.maxUploadSize)) (10 * 1024 * 1024))
    (hmime : (jsOrList (security.map (fun s => s.allowedMimeTypes))
      ["image/jpeg", "image/png", "image/gif", "image/webp"]).contains f.mime = false)
    (huser : (user.map (fun u => u.allowedMimeTypes)).getD none = none)
    (hscope2 : ((resolveSecurity user).requireScope
      && !hasScope verification2.scope "media") = false)
    (hsize2 : ¬ f2.size > jsOrNat (some (resolveSecurity user).maxUploadSize)
      (10 * 1024 * 1024))
    (hsvg : f2.mime = "image/svg+xml") :
    mediaPost security (some verification) (some f) =
      .response (createErrorResponse 415 "invalid_request"
        (some ("File type " ++ f.mime ++ " is not allowed"))) ∧
    (resolveSecurity user).allowedMimeTypes =
      ["image/jpeg", "image/png", "image/gif", "image/webp"] ∧
    mediaPost (some (resolveSecurity user)) (some verification2) (some f2) =
      .response (createErrorResponse 415 "invalid_request"
        (some ("File type " ++ f2.mime ++ " is not allowed"))) := by
  have hlist : (resolveSecurity user).allowedMimeTypes =
      ["image/jpeg", "image/png", "image/gif", "image/webp"] := by
    unfold resolveSecurity integrationResolveSecurity validateSecurity
    cases user with
    | none => rfl
    | some u =>
        have hu : u.allowedMimeTypes = none := by simpa using huser
        simp [hu]
  refine ⟨?_, hlist, ?_⟩
  · unfold mediaPost
    simp only [hscope, Bool.false_eq_true, if_false]
    rw [if_neg hsize]
    simp only [hmime, Bool.not_false, if_true]
  · unfold mediaPost
    have hc1 : ((Option.map (fun s => s.requireScope) (some (resolveSecurity user))).getD false
        && !hasScope verification2.scope "media") = false := hscope2
    have hc2 : ¬ f2.size > jsOrNat (Option.map (fun s => s.maxUploadSize)
        (some (resolveSecurity user))) (10 * 1024 * 1024) := hsize2
    have hc3 : (jsOrList (Option.map (fun s => s.allowedMimeTypes)
        (some (resolveSecurity user)))
        ["image/jpeg", "image/png", "image/gif", "image/webp"]).contains f2.mime = false := by
      have he : jsOrList (Option.map (fun s => s.allowedMimeTypes)
          (some (resolveSecurity user)))
          ["image/jpeg", "image/png", "image/gif", "image/webp"] =
          (resolveSecurity user).allowedMimeTypes := rfl
      rw [he, hlist, hsvg]
      decide
    simp only [hc1, Bool.false_eq_true, if_false]
    rw [if_neg hc2]
    simp only [hc3, Bool.not_false, if_true]

/-- Concrete instance of C7: with no user security options at all, an SVG
upload of modest size under a valid `media`-scoped token is rejected with
415, and a bare `image/tiff` upload under an explicit allow-list is also
rejected with 415. -/
theorem mediaPost_mime_allowlist_witness :
    mediaPost
        (some { requireScope := true, allowedOrigins := ["*"], maxUploadSize := 10485760,
                allowedMimeTypes := ["image/jpeg", "image/png", "image/gif", "image/webp"] })
        (some { active := true, me := "https://me.example", client_id := "",
                scope := "media", exp := none })
        (some { name := "a.tif", size := 10, mime := "image/tiff" }) =
      .response (createErrorResponse 415 "invalid_request"
        (some ("File type " ++ "image/tiff" ++ " is not allowed"))) ∧
    (resolveSecurity none).allowedMimeTypes =
      ["image/jpeg", "image/png", "image/gif", "image/webp"] ∧
    mediaPost (some (resolveSecurity none))
        (some { active := true, me := "https://me.example", client_id := "",
                scope := "media", exp := none })
        (some { name := "a.svg", size := 10, mime := "image/svg+xml" }) =
      .response (createErrorResponse 415 "invalid_request"
        (some ("File type " ++ "image/svg+xml" ++ " is not allowed"))) :=
  mediaPost_mime_allowlist
    (some { requireScope := true, allowedOrigins := ["*"], maxUploadSize := 10485760,
            allowedMimeTypes := ["image/jpeg", "image/png", "image/gif", "image/webp"] })
    { active := true, me := "https://me.example", client_id := "", scope := "media",
      exp := none }
    { name := "a.tif", size := 10, mime := "image/tiff" }
    none
    { active := true, me := "https://me.example", client_id := "", scope := "media",
      exp := none }
    { name := "a.svg", size := 10, mime := "image/svg+xml" }
    (by decide) (by decide) (by decide) (by decide) (by decide) (by decide) (by decide)

/-! ## Claim C6: URL ownership in the update, delete and undelete handlers -/

/-- A parsed absolute URL, with the pieces the handlers compare: scheme,
host (with any port), and the remainder of the URL. -/
structure ParsedUrl where
  scheme : String
  host : String
  rest : String
deriving DecidableEq

/-- The WHATWG `origin` of a parsed URL: scheme, separator, host. -/
def ParsedUrl.origin (u : ParsedUrl) : String :=
  u.scheme ++ "://" ++ u.host

/-- Split a character list at the first `://`, returning the characters
before it and after it. -/
def findSchemeSplit : List Char → Option (List Char × List Char)
  | [] => none
  | ':' :: '/' :: '/' :: rest => some ([], rest)
  | c :: rest =>
      match findSchemeSplit rest with
      | some kv => some (c :: kv.1, kv.2)
      | none => none

/-- A minimal model of the platform `new URL` constructor for the
`scheme://host/rest` shapes this repository handles: the string must carry
a nonempty scheme, `://`, and a nonempty host; anything else — in
particular every relative URL — makes the constructor throw, embedded as
`none`. -/
def parseUrl (s : String) : Option ParsedUrl :=
  match findSchemeSplit s.data with
  | none => none
  | some (sch, rem) =>
      if sch = [] then none
      else
        let host := rem.takeWhile (fun c => c ≠ '/')
        if host = [] then none
        else
          some ⟨String.mk sch, String.mk host, String.mk (rem.dropWhile (fun c => c ≠ '/'))⟩

/-- Embedding of `isAbsoluteUrl` from `src/lib/utils.ts`: `new URL(url)`
succeeds. -/
def isAbsoluteUrl (url : String) : Bool :=
  (parseUrl url).isSome

/-- Outcome of an action-handler pipeline: an early HTTP response, or the
storage-adapter invocation the handler reaches on success (after which it
answers 204, or maps adapter failures to 404/500). -/
inductive ActionResult where
  | response (r : HttpResponse)
  | updateCall (url : String) (operations : List UpdateOperation)
  | deleteCall (url : String)
  | undeleteCall (url : String)

/-- Whether the outcome reaches the storage adapter. -/
def ActionResult.callsAdapter : ActionResult → Bool
  | .response _ => false
  | .updateCall _ _ => true
  | .deleteCall _ => true
  | .undeleteCall _ => true

/-- The shared URL checks of the three action handlers in
`src/routes/micropub.ts`: 400 `invalid_request` when `new URL(url)` fails
(`isAbsoluteUrl` false); then `validateUrlOwnership` — a `new URL` failure
on the configured `site.me` escapes the handler and becomes the outer 500;
an origin mismatch throws `UrlOwnershipError`, caught and answered as 403
`forbidden` with the error's message; otherwise the continuation runs. -/
def urlChecks (url : String) (siteMe : String) (cont : ActionResult) : ActionResult :=
  if !isAbsoluteUrl url then
    .response (createErrorResponse 400 "invalid_request" (some "URL must be absolute"))
  else
    match parseUrl url, parseUrl siteMe with
    | some u, some s =>
        if u.origin ≠ s.origin then
          .response (createErrorResponse 403 "forbidden"
            (some ("URL " ++ url ++ " does not belong to this site")))
        else cont
    | _, _ =>
        .response (createErrorResponse 500 "server_error" (some "Failed to perform action"))

/-- Embedding of `handleUpdate` from `src/routes/micropub.ts`: scope check,
feature flag, absolute-URL check, URL-ownership check, then the adapter
call with the operations derived by `convertToUpdateOperations`. -/
def handleUpdate (requireScope : Bool) (enableUpdates : Bool) (siteMe : String)
    (verification : TokenVerificationResult) (action : MicropubUpdateRequest) : ActionResult :=
  if requireScope && !hasScope verification.scope "update" then
    .response (createAuthError 403 "insufficient_scope" none (some "update"))
  else if !enableUpdates then
    .response (createErrorResponse 403 "forbidden" (some "Updates are disabled"))
  else
    urlChecks action.url siteMe (.updateCall action.url (convertToUpdateOperations action))

/-- Embedding of `handleDelete` from `src/routes/micropub.ts`. -/
def handleDelete (requireScope : Bool) (enableDeletes : Bool) (siteMe : String)
    (verification : TokenVerificationResult) (url : String) : ActionResult :=
  if requireScope && !hasScope verification.scope "delete" then
    .response (createAuthError 403 "insufficient_scope" none (some "delete"))
  else if !enableDeletes then
    .response (createErrorResponse 403 "forbidden" (some "Deletes are disabled"))
  else
    urlChecks url siteMe (.deleteCall url)

/-- Embedding of `handleUndelete` from `src/routes/micropub.ts`: the same
`delete` scope and `enableDeletes` flag guard it. -/
def handleUndelete (requireScope : Bool) (enableDeletes : Bool) (siteMe : String)
    (verification : TokenVerificationResult) (url : String) : ActionResult :=
  if requireScope && !hasScope verification.scope "delete" then
    .response (createAuthError 403 "insufficient_scope" none (some "delete"))
  else if !enableDeletes then
    .response (createErrorResponse 403 "forbidden" (some "Undelete is disabled"))
  else
    urlChecks url siteMe (.undeleteCall url)

theorem urlChecks_foreign_origin (url siteMe : String) (u s : ParsedUrl) (cont : ActionResult)
    (hurl : parseUrl url = some u) (hsite : parseUrl siteMe = some s)
    (horigin : u.origin ≠ s.origin) :
    urlChecks url siteMe cont =
      .response (createErrorResponse 403 "forbidden"
        (some ("URL " ++ url ++ " does not belong to this site"))) := by
  unfold urlChecks isAbsoluteUrl
  rw [hurl, hsite]
  simp only [Option.isSome_some, Bool.not_true, Bool.false_eq_true, if_false]
  rw [if_pos horigin]

/-- Claim C6: an update, delete, or undelete aimed at an absolute URL whose
origin differs from the configured site identity's origin — under a token
whose scope passes the handler's scope check and with the feature flag on
— is answered 403 with error code `forbidden` (not a generic 400), and the
storage adapter's `updatePost`, `deletePost`, `undeletePost` are never
invoked. -/
theorem action_handlers_reject_foreign_origin (requireScope enableUpdates enableDeletes : Bool)
    (siteMe : String) (verification : TokenVerificationResult)
    (action : MicropubUpdateRequest) (u s : ParsedUrl)
    (hscopeU : (requireScope && !hasScope verification.scope "update") = false)
    (hscopeD : (requireScope && !hasScope verification.scope "delete") = false)
    (henU : enableUpdates = true) (henD : enableDeletes = true)
    (hurl : parseUrl action.url = some u) (hsite : parseUrl siteMe = some s)
    (horigin : u.origin ≠ s.origin) :
    handleUpdate requireScope enableUpdates siteMe verification action =
      .response (createErrorResponse 403 "forbidden"
        (some ("URL " ++ action.url ++ " does not belong to this site"))) ∧
    handleDelete requireScope enableDeletes siteMe verification action.url =
      .response (createErrorResponse 403 "forbidden"
        (some ("URL " ++ action.url ++ " does not belong to this site"))) ∧
    handleUndelete requireScope enableDeletes siteMe verification action.url =
      .response (createErrorResponse 403 "forbidden"
        (some ("URL " ++ action.url ++ " does not belong to this site"))) ∧
    (handleUpdate requireScope enableUpdates siteMe verification action).callsAdapter
        = false ∧
    (handleDelete requireScope enableDeletes siteMe verification action.url).callsAdapter
        = false ∧
    (handleUndelete requireScope enableDeletes siteMe verification action.url).callsAdapter
        = false := by
  have hu : handleUpdate requireScope enableUpdates siteMe verification action =
      .response (createErrorResponse 403 "forbidden"
        (some ("URL " ++ action.url ++ " does not belong to this site"))) := by
    unfold handleUpdate
    simp only [hscopeU, Bool.false_eq_true, if_false, henU, Bool.not_true]
    exact urlChecks_foreign_origin _ _ _ _ _ hurl hsite horigin
  have hd : handleDelete requireScope enableDeletes siteMe verification action.url =
      .response (createErrorResponse 403 "forbidden"
        (some ("URL " ++ action.url ++ " does not belong to this site"))) := by
    unfold handleDelete
    simp only [hscopeD, Bool.false_eq_true, if_false, henD, Bool.not_true]
    exact urlChecks_foreign_origin _ _ _ _ _ hurl hsite horigin
  have hud : handleUndelete requireScope enableDeletes siteMe verification action.url =
      .response (createErrorResponse 403 "forbidden"
        (some ("URL " ++ action.url ++ " does not belong to this site"))) := by
    unfold handleUndelete
    simp only [hscopeD, Bool.false_eq_true, if_false, henD, Bool.not_true]
    exact urlChecks_foreign_origin _ _ _ _ _ hurl hsite horigin
  exact ⟨hu, hd, hud, by rw [hu]; rfl, by rw [hd]; rfl, by rw [hud]; rfl⟩

/-- Concrete instance of C6: a token scoped `update delete` aiming at
`https://other.example/posts/x` while the site is `https://site.example`
draws the 403 ownership error from all three handlers. -/
theorem action_handlers_reject_foreign_origin_witness :
    handleUpdate true true "https://site.example"
        { active := true, me := "https://me.example", client_id := "",
          scope := "update delete", exp := none }
        { url := "https://other.example/posts/x", replace := none, add := none,
          delete := none } =
      .response (createErrorResponse 403 "forbidden"
        (some ("URL " ++ "https://other.example/posts/x" ++
          " does not belong to this site"))) ∧
    handleDelete true true "https://site.example"
        { active := true, me := "https://me.example", client_id := "",
          scope := "update delete", exp := none }
        "https://other.example/posts/x" =
      .response (createErrorResponse 403 "forbidden"
        (some ("URL " ++ "https://other.example/posts/x" ++
          " does not belong to this site"))) ∧
    handleUndelete true true "https://site.example"
        { active := true, me := "https://me.example", client_id := "",
          scope := "update delete", exp := none }
        "https://other.example/posts/x" =
      .response (createErrorResponse 403 "forbidden"
        (some ("URL " ++ "https://other.example/posts/x" ++
          " does not belong to this site"))) ∧
    (handleUpdate true true "https://site.example"
        { active := true, me := "https://me.example", client_id := "",
          scope := "update delete", exp := none }
        { url := "https://other.example/posts/x", replace := none, add := none,
          delete := none }).callsAdapter = false ∧
    (handleDelete true true "https://site.example"
        { active := true, me := "https://me.example", client_id := "",
          scope := "update delete", exp := none }
        "https://other.example/posts/x").callsAdapter = false ∧
    (handleUndelete true true "https://site.example"
        { active := true, me := "https://me.example", client_id := "",
          scope := "update delete", exp := none }
        "https://other.example/posts/x").callsAdapter = false :=
  action_handlers_reject_foreign_origin true true true "https://site.example"
    { active := true, me := "https://me.example", client_id := "",
      scope := "update delete", exp := none }
    { url := "https://other.example/posts/x", replace := none, add := none, delete := none }
    { scheme := "https", host := "other.example", rest := "/posts/x" }
    { scheme := "https", host := "site.example", rest := "" }
    (by decide) (by decide) (by decide) (by decide) (by decide) (by decide) (by decide)

end Micropub
